import Mathlib

/-!
# Verification of the pyX2Cscope motor sequencer (src/motor_gui.py)

Shallow embedding of the sequence controller, readback poller, unit
converter, start/stop handlers and connection bootstrap of
`src/motor_gui.py`, together with proofs settling the frozen claims.

Modelling conventions.

* The five MCAF variables written/read over the X2Cscope link
  (`app.hardwareUiEnabled`, `motor.apiData.velocityReference`,
  `motor.apiData.velocityMeasured`, `motor.apiData.runMotorRequest`,
  `motor.apiData.stopMotorRequest`) become the enumeration `Var`.

* The worker thread `_run_sequence` is embedded as a trace-producing
  function.  Each call of `self._stop_flag.is_set()` consumes one index
  of an oracle `flag : Nat → Bool` (index = how many is_set calls have
  happened so far); an asynchronous `_stop_seq` corresponds to a
  monotone oracle (once true, always true, `Mono`).  Each
  `time.sleep(0.05)` becomes one `Event.sleep`; a timed wait
  `while time.time() - t0 < d` that would run its full duration
  performs `ticks` iterations (`ticks = ceiling (d / 0.05)` under ideal
  timing), which is the fuel argument of `waitLoop`.  Writes through
  the variable channel become `Event.write` entries, in program order.

* Python floats are modelled as exact rationals `ℚ`; `int(round (x))`
  is `pyRound` (round half to even, CPython's rounding).

* The GUI fields that the claims mention (`connected`, the
  Start/Stop button states, `_thread.is_alive()`, `_stop_flag`,
  `self.params`) form the record `Gui`.  The status-line strings of
  lines 304-306 are the terminal states: "Done – motor idle" is
  `Terminal.completed`, "Stopped by user" is `Terminal.stoppedByUser`.

* The source is configured with `USE_SCOPE = True`, so a sequence only
  ever runs after a successful `_connect` (hence `self.stop_var`
  exists and line 301's getattr guard passes); the run-loop model
  therefore performs the final stop write unconditionally.
-/

namespace MotorGui

/-- The named remote variables of lines 21-25 of the source. -/
inductive Var
  | hwui
  | cmd
  | meas
  | runReq
  | stopReq
deriving DecidableEq

/-- Observable steps of the worker thread: a channel write with its
value, one 50 ms sleep, and one query of the cancellation flag with
the value it returned. -/
inductive Event
  | write (v : Var) (val : ℤ)
  | sleep
  | check (b : Bool)
deriving DecidableEq

/-- The two ways `_run_sequence` can end (status line 304-306):
"Done – motor idle" versus "Stopped by user". -/
inductive Terminal
  | completed
  | stoppedByUser
deriving DecidableEq

/-- CPython's `round` on the exact value: round half to even; the
outer `int(...)` of line 270 is the identity on the result. -/
def pyRound (x : ℚ) : ℤ :=
  if x - ⌊x⌋ < 1 / 2 then ⌊x⌋
  else if (1 : ℚ) / 2 < x - ⌊x⌋ then ⌊x⌋ + 1
  else if ⌊x⌋ % 2 = 0 then ⌊x⌋ else ⌊x⌋ + 1

/-- RPM → raw counts: `cnt_cmd = int(round(rpm / scale))`, line 270. -/
def toCounts (rpm scale : ℚ) : ℤ := pyRound (rpm / scale)

/-- counts → RPM: `rpm = cnt * scale`, lines 327-328. -/
def toRPM (counts : ℤ) (scale : ℚ) : ℚ := counts * scale

/-- Parameters of one `_run_sequence` execution after the conversion
of line 270: the raw command count, the tick budgets of the two timed
waits (number of 50 ms poll iterations), and the cycle count. -/
structure RunParams where
  cntCmd : ℤ
  runTicks : ℕ
  stopTicks : ℕ
  cycles : ℕ
deriving DecidableEq

/-- One timed wait (lines 281-285 resp. 294-298):
`while time.time() - t0 < d: if flag: break; time.sleep(0.05)`.
Fuel `t` is the number of loop iterations the wait would run if never
cancelled; `k` is the next cancellation-check index.  Returns the
events, the next check index, and whether the flag was seen set. -/
def waitLoop (flag : ℕ → Bool) : ℕ → ℕ → List Event × ℕ × Bool
  | 0, k => ([], k, false)
  | t + 1, k =>
    if flag k then ([Event.check true], k + 1, true)
    else
      (Event.check false :: Event.sleep :: (waitLoop flag t (k + 1)).1,
        (waitLoop flag t (k + 1)).2)

/-- The `for n in range(1, cycles + 1)` loop of lines 272-298, with the
remaining cycle count as fuel.  Per iteration: flag check (line 273),
RUN phase command and run-request writes (lines 278-279), run wait,
flag recheck (line 287), STOP phase stop-request write (line 292),
stop wait, next cycle.  Breaking out on an observed flag reproduces the
`break` statements.  Returns the events and the next check index. -/
def cycleLoop (flag : ℕ → Bool) (p : RunParams) : ℕ → ℕ → List Event × ℕ
  | 0, k => ([], k)
  | c + 1, k =>
    if flag k then ([Event.check true], k + 1)
    else if flag (waitLoop flag p.runTicks (k + 1)).2.1 then
      ([Event.check false, Event.write Var.cmd p.cntCmd, Event.write Var.runReq 1] ++
          (waitLoop flag p.runTicks (k + 1)).1 ++ [Event.check true],
        (waitLoop flag p.runTicks (k + 1)).2.1 + 1)
    else
      ([Event.check false, Event.write Var.cmd p.cntCmd, Event.write Var.runReq 1] ++
          (waitLoop flag p.runTicks (k + 1)).1 ++
          [Event.check false, Event.write Var.stopReq 1] ++
          (waitLoop flag p.stopTicks ((waitLoop flag p.runTicks (k + 1)).2.1 + 1)).1 ++
          (cycleLoop flag p c
            (waitLoop flag p.stopTicks ((waitLoop flag p.runTicks (k + 1)).2.1 + 1)).2.1).1,
        (cycleLoop flag p c
          (waitLoop flag p.stopTicks ((waitLoop flag p.runTicks (k + 1)).2.1 + 1)).2.1).2)

/-- `_run_sequence` (lines 268-312): the cycle loop, then the
unconditional safety write `self.stop_var.set_value(1)` (lines
300-302), then the final `self._stop_flag.is_set()` of line 305 that
selects the terminal status string. -/
def runSequence (flag : ℕ → Bool) (p : RunParams) : List Event × Terminal :=
  ((cycleLoop flag p p.cycles 0).1 ++
      [Event.write Var.stopReq 1, Event.check (flag (cycleLoop flag p p.cycles 0).2)],
    if flag (cycleLoop flag p p.cycles 0).2 then Terminal.stoppedByUser
    else Terminal.completed)

/-- The event pattern of a timed wait that runs to completion without
ever seeing the flag: `t` repetitions of poll-then-sleep. -/
def pollN : ℕ → List Event
  | 0 => []
  | t + 1 => Event.check false :: Event.sleep :: pollN t

/-- The events of one full uncancelled cycle of the loop of lines
272-298. -/
def cycleBlock (p : RunParams) : List Event :=
  [Event.check false, Event.write Var.cmd p.cntCmd, Event.write Var.runReq 1] ++
    pollN p.runTicks ++
    [Event.check false, Event.write Var.stopReq 1] ++
    pollN p.stopTicks

/-- `c` uncancelled cycles in a row. -/
def blocks (p : RunParams) : ℕ → List Event
  | 0 => []
  | c + 1 => cycleBlock p ++ blocks p c

/-- Does an event write the channel at all? -/
def isWriteEv : Event → Bool
  | Event.write _ _ => true
  | _ => false

/-- Does an event write the given variable? -/
def writesTo (v : Var) : Event → Bool
  | Event.write w _ => w == v
  | _ => false

/-- A cancellation oracle is monotone: the threading.Event of the
source is set once and never cleared during a run (`_stop_flag.clear()`
only happens in `_start_seq`, before the thread starts). -/
def Mono (flag : ℕ → Bool) : Prop :=
  ∀ i j, i ≤ j → flag i = true → flag j = true

/-- The numeric inputs of `_start_seq` after the successful
`float(...)`/`int(...)` parses of lines 237-241. -/
structure SeqInputs where
  rpm : ℚ
  scale : ℚ
  runT : ℚ
  stopT : ℚ
  cycles : ℤ
deriving DecidableEq

/-- The GUI state the claims talk about: the `connected` flag, the
Start/Stop button states, `self._thread and self._thread.is_alive()`,
the `_stop_flag` event, and `self.params`. -/
structure Gui where
  connected : Bool
  startEnabled : Bool
  stopEnabled : Bool
  threadAlive : Bool
  stopFlag : Bool
  params : Option SeqInputs
deriving DecidableEq

/-- How a call of `_start_seq` returns. -/
inductive StartResult
  | alreadyRunning
  | inputError
  | notConnected
  | started
deriving DecidableEq

/-- `_start_seq` (lines 232-260).  Order as in the source: the
thread-alive guard of line 233 first, then the validation of line 243
(`scale <= 0 or run_t <= 0 or stop_t < 0 or cycles <= 0` — note the
source does not constrain `rpm`), then the connection guard of line
249, then the side effects of lines 253-260: clear `_stop_flag`,
store `self.params`, start the worker (thread alive), disable Start,
enable Stop; `connected` is untouched. -/
def startSeq (g : Gui) (inp : SeqInputs) : Gui × StartResult :=
  if g.threadAlive then (g, StartResult.alreadyRunning)
  else if inp.scale ≤ 0 ∨ inp.runT ≤ 0 ∨ inp.stopT < 0 ∨ inp.cycles ≤ 0 then
    (g, StartResult.inputError)
  else if !g.connected then (g, StartResult.notConnected)
  else
    (⟨g.connected, false, true, true, false, some inp⟩, StartResult.started)

/-- `_stop_seq` (lines 262-266): when the worker is alive, set the
cancellation flag and assert the remote stop request. -/
def stopSeq (g : Gui) : Gui × List Event :=
  if g.threadAlive then ({ g with stopFlag := true }, [Event.write Var.stopReq 1])
  else (g, [])

/-- Success/failure of the external calls performed inside the `try`
of `_connect` (lines 201-208): `scope.connect`, the five
`get_variable` lookups, and `hwui_var.set_value(0)`. -/
structure ConnectOracle where
  connectOk : Bool
  varOk : Var → Bool
  hwuiWriteOk : Bool

/-- How a call of `_connect` returns. -/
inductive ConnectResult
  | missingInfo
  | fileNotFound
  | failed
  | ok
deriving DecidableEq

/-- `_connect` (lines 191-216).  `haveSelection` stands for the port
and ELF entries being non-empty (line 194), `elfExists` for the
filesystem test of line 197.  Any exception inside the `try` is
reported and leaves the state untouched; only full success flips
`connected`, enables Start, and has performed the hardware-UI-disable
write. -/
def connect (g : Gui) (haveSelection elfExists : Bool) (o : ConnectOracle) :
    Gui × ConnectResult × List Event :=
  if !haveSelection then (g, ConnectResult.missingInfo, [])
  else if !elfExists then (g, ConnectResult.fileNotFound, [])
  else if !o.connectOk then (g, ConnectResult.failed, [])
  else if !(o.varOk Var.hwui && o.varOk Var.cmd && o.varOk Var.meas &&
      o.varOk Var.runReq && o.varOk Var.stopReq) then
    (g, ConnectResult.failed, [])
  else if !o.hwuiWriteOk then (g, ConnectResult.failed, [])
  else
    ({ g with connected := true, startEnabled := true }, ConnectResult.ok,
      [Event.write Var.hwui 0])

/-- One displayed sample of `_poll_speeds`: either the sentinel "—"
strings or a rendered pair of counts with their RPM conversions. -/
inductive Sample
  | unavailable
  | value (cntMeas cntCmd : ℤ) (rpmMeas rpmCmd : ℚ)
deriving DecidableEq

/-- One tick of `_poll_speeds` (lines 317-338).  `readRes` is `none`
when `get_value` raised (the `except` of line 322 then substitutes
`cnt_meas = cnt_cmd = 0`); `scaleRes` is `none` when
`float(self.scale_entry.get())` raised `ValueError` (line 331, which
displays the "—" sentinel).  Not connected also displays "—". -/
def pollSpeeds (connected : Bool) (readRes : Option (ℤ × ℤ)) (scaleRes : Option ℚ) :
    Sample :=
  if connected then
    match scaleRes with
    | some s =>
      Sample.value (readRes.getD (0, 0)).1 (readRes.getD (0, 0)).2
        (toRPM (readRes.getD (0, 0)).1 s) (toRPM (readRes.getD (0, 0)).2 s)
    | none => Sample.unavailable
  else Sample.unavailable

/-- `_poll_speeds` as a state transformer: the tick only sets the two
display strings (lines 329-336); every controller-visible field of
`Gui` is untouched. -/
def pollSpeedsSt (g : Gui) (readRes : Option (ℤ × ℤ)) (scaleRes : Option ℚ) :
    Gui × Sample :=
  (g, pollSpeeds g.connected readRes scaleRes)

/-- How a `_run_sequence` execution can end once channel writes may
raise: with a terminal status, or with the exception propagating out
of the worker (there is no `try` in `_run_sequence`, so a raising
`set_value` kills the thread on the spot: no later line of the
function runs). -/
inductive Outcome
  | finished (t : Terminal)
  | raised
deriving DecidableEq

/-- The cycle loop of lines 272-298 when `set_value` may raise.
`failAt w` says whether the `w`-th write attempt of this run raises;
writes are numbered in program order.  On a raise the function stops
dead (events so far, abort flag set), mirroring an uncaught Python
exception.  Returns (events, next check index, next write index,
aborted). -/
def cycleLoopExn (flag failAt : ℕ → Bool) (p : RunParams) :
    ℕ → ℕ → ℕ → List Event × ℕ × ℕ × Bool
  | 0, k, w => ([], k, w, false)
  | c + 1, k, w =>
    if flag k then ([Event.check true], k + 1, w, false)
    else if failAt w then ([Event.check false], k + 1, w, true)
    else if failAt (w + 1) then
      ([Event.check false, Event.write Var.cmd p.cntCmd], k + 1, w + 1, true)
    else if flag (waitLoop flag p.runTicks (k + 1)).2.1 then
      ([Event.check false, Event.write Var.cmd p.cntCmd, Event.write Var.runReq 1] ++
          (waitLoop flag p.runTicks (k + 1)).1 ++ [Event.check true],
        (waitLoop flag p.runTicks (k + 1)).2.1 + 1, w + 2, false)
    else if failAt (w + 2) then
      ([Event.check false, Event.write Var.cmd p.cntCmd, Event.write Var.runReq 1] ++
          (waitLoop flag p.runTicks (k + 1)).1 ++ [Event.check false],
        (waitLoop flag p.runTicks (k + 1)).2.1 + 1, w + 2, true)
    else
      ([Event.check false, Event.write Var.cmd p.cntCmd, Event.write Var.runReq 1] ++
          (waitLoop flag p.runTicks (k + 1)).1 ++
          [Event.check false, Event.write Var.stopReq 1] ++
          (waitLoop flag p.stopTicks ((waitLoop flag p.runTicks (k + 1)).2.1 + 1)).1 ++
          (cycleLoopExn flag failAt p c
            (waitLoop flag p.stopTicks ((waitLoop flag p.runTicks (k + 1)).2.1 + 1)).2.1
            (w + 3)).1,
        (cycleLoopExn flag failAt p c
          (waitLoop flag p.stopTicks ((waitLoop flag p.runTicks (k + 1)).2.1 + 1)).2.1
          (w + 3)).2)

/-- `_run_sequence` with fallible writes: the loop, then — only if no
write has raised so far — the final stop write of line 302 (which may
itself raise) and the status selection of lines 304-306. -/
def runSequenceExn (flag failAt : ℕ → Bool) (p : RunParams) : List Event × Outcome :=
  if (cycleLoopExn flag failAt p p.cycles 0 0).2.2.2 then
    ((cycleLoopExn flag failAt p p.cycles 0 0).1, Outcome.raised)
  else if failAt (cycleLoopExn flag failAt p p.cycles 0 0).2.2.1 then
    ((cycleLoopExn flag failAt p p.cycles 0 0).1, Outcome.raised)
  else
    ((cycleLoopExn flag failAt p p.cycles 0 0).1 ++
        [Event.write Var.stopReq 1,
          Event.check (flag (cycleLoopExn flag failAt p p.cycles 0 0).2.1)],
      Outcome.finished
        (if flag (cycleLoopExn flag failAt p p.cycles 0 0).2.1 then
          Terminal.stoppedByUser
        else Terminal.completed))

section ConverterFacts

theorem pyRound_intCast (c : ℤ) : pyRound ((c : ℚ)) = c := by
  have h : ((c : ℚ)) - (⌊(c : ℚ)⌋ : ℚ) < 1 / 2 := by
    rw [Int.floor_intCast]
    norm_num
  simp [pyRound, h, Int.floor_intCast]

theorem toCounts_toRPM (c : ℤ) (s : ℚ) (hs : s ≠ 0) :
    toCounts (toRPM c s) s = c := by
  rw [toRPM, toCounts, mul_div_cancel_right₀ _ hs, pyRound_intCast]

end ConverterFacts

/-- Is the event a 50 ms sleep? -/
def isSleep : Event → Bool
  | Event.sleep => true
  | _ => false

/-- Is the event a cancellation check that returned false? -/
def isCheckFalse : Event → Bool
  | Event.check false => true
  | _ => false

/-- Scanning a trace with the previous event at hand: every sleep must
directly follow a cancellation check that returned false.  This is the
discrete form of "the wait loops sleep no coarser than 50 ms between
flag checks": at most one 50 ms sleep can separate a cancellation
request from the check that observes it. -/
def guardedFrom : Event → List Event → Bool
  | _, [] => true
  | prev, e :: rest => (!(isSleep e) || isCheckFalse prev) && guardedFrom e rest

/-- Every sleep of the trace directly follows a check that returned
false (and the trace does not start with a sleep). -/
def sleepsGuarded : List Event → Bool
  | [] => true
  | e :: rest => !(isSleep e) && guardedFrom e rest

/-- The trace does not start with a sleep. -/
def notSleepHead : List Event → Bool
  | [] => true
  | e :: _ => !(isSleep e)

/-- A well-formed trace fragment: sleeps are guarded and it does not
begin with a sleep, so fragments can be concatenated safely. -/
def ChunkOk (es : List Event) : Prop :=
  sleepsGuarded es = true ∧ notSleepHead es = true

/-- The trace contains no cancellation check that returned true. -/
def CTF (es : List Event) : Prop := Event.check true ∉ es

/-- After the first observed cancellation (the first check returning
true) the trace ends at once: possibly one more confirming check, then
the single final stop-request write and the final status check —
no sleep, no further phase, exactly one more stop assertion. -/
def cancelTail : List Event → Prop
  | [] => True
  | Event.check true :: rest =>
    rest = [] ∨
    rest = [Event.write Var.stopReq 1, Event.check true] ∨
    rest = [Event.check true, Event.write Var.stopReq 1, Event.check true]
  | _ :: rest => cancelTail rest

section TraceLemmas

theorem guardedFrom_of_chunkOk : ∀ es, ChunkOk es → ∀ p, guardedFrom p es = true
  | [], _, _ => rfl
  | e :: r, h, p => by
    have h1 := h.1
    simp only [sleepsGuarded, Bool.and_eq_true] at h1
    simp [guardedFrom, h1.1, h1.2]

theorem guardedFrom_append_of {ys : List Event} (hy : ChunkOk ys) :
    ∀ xs p, guardedFrom p xs = true → guardedFrom p (xs ++ ys) = true
  | [], p, _ => guardedFrom_of_chunkOk ys hy p
  | x :: xs, p, h => by
    simp only [guardedFrom, Bool.and_eq_true] at h
    simp only [List.cons_append, guardedFrom, Bool.and_eq_true]
    exact ⟨h.1, guardedFrom_append_of hy xs x h.2⟩

theorem chunkOk_append {xs ys : List Event} (hx : ChunkOk xs) (hy : ChunkOk ys) :
    ChunkOk (xs ++ ys) := by
  cases xs with
  | nil => simpa using hy
  | cons x r =>
    have h1 := hx.1
    simp only [sleepsGuarded, Bool.and_eq_true] at h1
    refine ⟨?_, hx.2⟩
    simp only [List.cons_append, sleepsGuarded, Bool.and_eq_true]
    exact ⟨h1.1, guardedFrom_append_of hy r x h1.2⟩

theorem ctf_nil : CTF [] := by simp [CTF]

theorem ctf_append {xs ys : List Event} : CTF (xs ++ ys) ↔ CTF xs ∧ CTF ys := by
  simp [CTF, List.mem_append, not_or]

theorem ctf_cons {e : Event} {es : List Event} :
    CTF (e :: es) ↔ ¬(Event.check true = e) ∧ CTF es := by
  simp [CTF, List.mem_cons, not_or]

theorem cancelTail_append_of_ctf {ys : List Event} :
    ∀ xs, CTF xs → (cancelTail (xs ++ ys) ↔ cancelTail ys)
  | [], _ => Iff.rfl
  | e :: xs, h => by
    have h2 := ctf_cons.mp h
    cases e with
    | write v x =>
      simpa [cancelTail] using cancelTail_append_of_ctf xs h2.2
    | sleep =>
      simpa [cancelTail] using cancelTail_append_of_ctf xs h2.2
    | check b =>
      cases b with
      | false => simpa [cancelTail] using cancelTail_append_of_ctf xs h2.2
      | true => exact absurd rfl h2.1

end TraceLemmas

section LoopLemmas

variable (flag : ℕ → Bool) (p : RunParams)

theorem waitLoop_succ_true {k : ℕ} (h : flag k = true) (t : ℕ) :
    waitLoop flag (t + 1) k = ([Event.check true], k + 1, true) := by
  simp [waitLoop, h]

theorem waitLoop_succ_false {k : ℕ} (h : flag k = false) (t : ℕ) :
    waitLoop flag (t + 1) k =
      (Event.check false :: Event.sleep :: (waitLoop flag t (k + 1)).1,
        (waitLoop flag t (k + 1)).2) := by
  simp [waitLoop, h]

theorem waitLoop_chunkOk : ∀ t k, ChunkOk (waitLoop flag t k).1 := by
  intro t
  induction t with
  | zero => intro k; exact ⟨rfl, rfl⟩
  | succ t ih =>
    intro k
    cases h : flag k with
    | true => rw [waitLoop_succ_true flag h]; exact ⟨rfl, rfl⟩
    | false =>
      rw [waitLoop_succ_false flag h]
      refine ⟨?_, rfl⟩
      have hg := guardedFrom_of_chunkOk _ (ih (k + 1)) Event.sleep
      simp [sleepsGuarded, guardedFrom, isSleep, isCheckFalse, hg]

theorem waitLoop_spec : ∀ t k,
    ((waitLoop flag t k).2.2 = false ∧ CTF (waitLoop flag t k).1) ∨
    ((waitLoop flag t k).2.2 = true ∧
      ∃ es0, CTF es0 ∧ (waitLoop flag t k).1 = es0 ++ [Event.check true] ∧
        ∃ j, j < (waitLoop flag t k).2.1 ∧ flag j = true) := by
  intro t
  induction t with
  | zero => intro k; exact Or.inl ⟨rfl, ctf_nil⟩
  | succ t ih =>
    intro k
    cases h : flag k with
    | true =>
      rw [waitLoop_succ_true flag h]
      exact Or.inr ⟨rfl, [], ctf_nil, by simp, k, Nat.lt_succ_self k, h⟩
    | false =>
      rw [waitLoop_succ_false flag h]
      rcases ih (k + 1) with ⟨ho, hc⟩ | ⟨ho, es0, hc, heq, j, hj, hfj⟩
      · refine Or.inl ⟨ho, ?_⟩
        rw [ctf_cons, ctf_cons]
        exact ⟨by simp, by simp, hc⟩
      · refine Or.inr ⟨ho, Event.check false :: Event.sleep :: es0, ?_, ?_, j, hj, hfj⟩
        · rw [ctf_cons, ctf_cons]
          exact ⟨by simp, by simp, hc⟩
        · simp [heq]

theorem cycleLoop_succ_cancel {k : ℕ} (h : flag k = true) (c : ℕ) :
    cycleLoop flag p (c + 1) k = ([Event.check true], k + 1) := by
  simp [cycleLoop, h]

theorem cycleLoop_succ_mid {k : ℕ} (h0 : flag k = false)
    (h1 : flag (waitLoop flag p.runTicks (k + 1)).2.1 = true) (c : ℕ) :
    cycleLoop flag p (c + 1) k =
      ([Event.check false, Event.write Var.cmd p.cntCmd, Event.write Var.runReq 1] ++
          (waitLoop flag p.runTicks (k + 1)).1 ++ [Event.check true],
        (waitLoop flag p.runTicks (k + 1)).2.1 + 1) := by
  simp [cycleLoop, h0, h1]

theorem cycleLoop_succ_full {k : ℕ} (h0 : flag k = false)
    (h1 : flag (waitLoop flag p.runTicks (k + 1)).2.1 = false) (c : ℕ) :
    cycleLoop flag p (c + 1) k =
      ([Event.check false, Event.write Var.cmd p.cntCmd, Event.write Var.runReq 1] ++
          (waitLoop flag p.runTicks (k + 1)).1 ++
          [Event.check false, Event.write Var.stopReq 1] ++
          (waitLoop flag p.stopTicks ((waitLoop flag p.runTicks (k + 1)).2.1 + 1)).1 ++
          (cycleLoop flag p c
            (waitLoop flag p.stopTicks ((waitLoop flag p.runTicks (k + 1)).2.1 + 1)).2.1).1,
        (cycleLoop flag p c
          (waitLoop flag p.stopTicks ((waitLoop flag p.runTicks (k + 1)).2.1 + 1)).2.1).2) := by
  simp [cycleLoop, h0, h1]

theorem cycleLoop_chunkOk : ∀ c k, ChunkOk (cycleLoop flag p c k).1 := by
  intro c
  induction c with
  | zero => intro k; exact ⟨rfl, rfl⟩
  | succ c ih =>
    intro k
    cases h0 : flag k with
    | true => rw [cycleLoop_succ_cancel flag p h0]; exact ⟨rfl, rfl⟩
    | false =>
      cases h1 : flag (waitLoop flag p.runTicks (k + 1)).2.1 with
      | true =>
        rw [cycleLoop_succ_mid flag p h0 h1]
        exact chunkOk_append (chunkOk_append ⟨rfl, rfl⟩ (waitLoop_chunkOk flag _ _))
          ⟨rfl, rfl⟩
      | false =>
        rw [cycleLoop_succ_full flag p h0 h1]
        exact chunkOk_append (chunkOk_append (chunkOk_append (chunkOk_append
          ⟨rfl, rfl⟩ (waitLoop_chunkOk flag _ _)) ⟨rfl, rfl⟩)
          (waitLoop_chunkOk flag _ _)) (ih _)

theorem chunkOk_finalPair (b : Bool) :
    ChunkOk [Event.write Var.stopReq 1, Event.check b] := ⟨rfl, rfl⟩

theorem runSequence_sleepsGuarded :
    sleepsGuarded (runSequence flag p).1 = true :=
  (chunkOk_append (cycleLoop_chunkOk flag p p.cycles 0)
    (chunkOk_finalPair (flag (cycleLoop flag p p.cycles 0).2))).1

theorem cycleLoop_spec (hm : Mono flag) : ∀ c k,
    CTF (cycleLoop flag p c k).1 ∨
    (flag (cycleLoop flag p c k).2 = true ∧
      ∃ es0, CTF es0 ∧
        ((cycleLoop flag p c k).1 = es0 ++ [Event.check true] ∨
         (cycleLoop flag p c k).1 = es0 ++ [Event.check true, Event.check true])) := by
  intro c
  induction c with
  | zero => intro k; exact Or.inl ctf_nil
  | succ c ih =>
    intro k
    cases h0 : flag k with
    | true =>
      rw [cycleLoop_succ_cancel flag p h0]
      exact Or.inr ⟨hm k (k + 1) (Nat.le_succ k) h0, [], ctf_nil, Or.inl (by simp)⟩
    | false =>
      cases h1 : flag (waitLoop flag p.runTicks (k + 1)).2.1 with
      | true =>
        rw [cycleLoop_succ_mid flag p h0 h1]
        refine Or.inr ⟨hm _ _ (Nat.le_succ _) h1, ?_⟩
        rcases waitLoop_spec flag p.runTicks (k + 1) with ⟨_, hc⟩ |
          ⟨_, es1, hc1, heq1, _⟩
        · refine ⟨[Event.check false, Event.write Var.cmd p.cntCmd,
            Event.write Var.runReq 1] ++ (waitLoop flag p.runTicks (k + 1)).1,
            ?_, Or.inl ?_⟩
          · rw [ctf_append]
            exact ⟨by simp [CTF], hc⟩
          · simp [List.append_assoc]
        · refine ⟨[Event.check false, Event.write Var.cmd p.cntCmd,
            Event.write Var.runReq 1] ++ es1, ?_, Or.inr ?_⟩
          · rw [ctf_append]
            exact ⟨by simp [CTF], hc1⟩
          · rw [heq1]
            simp [List.append_assoc]
      | false =>
        have hW1 : CTF (waitLoop flag p.runTicks (k + 1)).1 := by
          rcases waitLoop_spec flag p.runTicks (k + 1) with ⟨_, hc⟩ |
            ⟨_, _, _, _, j, hj, hfj⟩
          · exact hc
          · have hcontra := hm j _ (Nat.le_of_lt hj) hfj
            rw [h1] at hcontra
            exact absurd hcontra (by simp)
        rw [cycleLoop_succ_full flag p h0 h1]
        rcases waitLoop_spec flag p.stopTicks ((waitLoop flag p.runTicks (k + 1)).2.1 + 1)
          with ⟨_, hc2⟩ | ⟨_, es2, hc2, heq2, j2, hj2, hfj2⟩
        · rcases ih (waitLoop flag p.stopTicks
            ((waitLoop flag p.runTicks (k + 1)).2.1 + 1)).2.1
            with hrec | ⟨hfl, es3, hc3, hdec⟩
          · left
            rw [ctf_append, ctf_append, ctf_append, ctf_append]
            exact ⟨⟨⟨⟨by simp [CTF], hW1⟩, by simp [CTF]⟩, hc2⟩, hrec⟩
          · refine Or.inr ⟨hfl, ([Event.check false, Event.write Var.cmd p.cntCmd,
              Event.write Var.runReq 1] ++ (waitLoop flag p.runTicks (k + 1)).1 ++
              [Event.check false, Event.write Var.stopReq 1] ++
              (waitLoop flag p.stopTicks
                ((waitLoop flag p.runTicks (k + 1)).2.1 + 1)).1) ++ es3, ?_, ?_⟩
            · rw [ctf_append, ctf_append, ctf_append, ctf_append]
              exact ⟨⟨⟨⟨by simp [CTF], hW1⟩, by simp [CTF]⟩, hc2⟩, hc3⟩
            · rcases hdec with hd | hd
              · refine Or.inl ?_
                rw [hd]
                simp [List.append_assoc]
              · refine Or.inr ?_
                rw [hd]
                simp [List.append_assoc]
        · have hk2 : flag (waitLoop flag p.stopTicks
              ((waitLoop flag p.runTicks (k + 1)).2.1 + 1)).2.1 = true :=
            hm j2 _ (Nat.le_of_lt hj2) hfj2
          cases c with
          | zero =>
            refine Or.inr ⟨hk2, ([Event.check false, Event.write Var.cmd p.cntCmd,
              Event.write Var.runReq 1] ++ (waitLoop flag p.runTicks (k + 1)).1 ++
              [Event.check false, Event.write Var.stopReq 1]) ++ es2, ?_, Or.inl ?_⟩
            · rw [ctf_append, ctf_append, ctf_append]
              exact ⟨⟨⟨by simp [CTF], hW1⟩, by simp [CTF]⟩, hc2⟩
            · rw [heq2]
              simp [cycleLoop, List.append_assoc]
          | succ c2 =>
            rw [cycleLoop_succ_cancel flag p hk2]
            refine Or.inr ⟨hm _ _ (Nat.le_succ _) hk2,
              ([Event.check false, Event.write Var.cmd p.cntCmd,
                Event.write Var.runReq 1] ++ (waitLoop flag p.runTicks (k + 1)).1 ++
                [Event.check false, Event.write Var.stopReq 1]) ++ es2, ?_, Or.inr ?_⟩
            · rw [ctf_append, ctf_append, ctf_append]
              exact ⟨⟨⟨by simp [CTF], hW1⟩, by simp [CTF]⟩, hc2⟩
            · rw [heq2]
              simp [List.append_assoc]

theorem waitLoop_false : ∀ t k,
    waitLoop (fun _ => false) t k = (pollN t, k + t, false) := by
  intro t
  induction t with
  | zero => intro k; rfl
  | succ t ih =>
    intro k
    rw [waitLoop_succ_false (fun _ => false) rfl, ih (k + 1)]
    simp [pollN]
    omega

theorem cycleLoop_false : ∀ c k,
    cycleLoop (fun _ => false) p c k =
      (blocks p c, k + c * (p.runTicks + p.stopTicks + 2)) := by
  intro c
  induction c with
  | zero => intro k; simp [cycleLoop, blocks]
  | succ c ih =>
    intro k
    rw [cycleLoop_succ_full (fun _ => false) p rfl rfl c]
    simp [waitLoop_false, ih, blocks, cycleBlock, List.append_assoc]
    ring

theorem runSequence_false :
    runSequence (fun _ => false) p =
      (blocks p p.cycles ++ [Event.write Var.stopReq 1, Event.check false],
        Terminal.completed) := by
  simp [runSequence, cycleLoop_false]

theorem pollN_countP (v : Var) : ∀ t, (pollN t).countP (writesTo v) = 0 := by
  intro t
  induction t with
  | zero => rfl
  | succ t ih => simp [pollN, List.countP_cons, writesTo, ih]

theorem cycleBlock_countP_cmd :
    (cycleBlock p).countP (writesTo Var.cmd) = 1 := by
  simp [cycleBlock, List.countP_append, List.countP_cons, writesTo, pollN_countP]

theorem cycleBlock_countP_runReq :
    (cycleBlock p).countP (writesTo Var.runReq) = 1 := by
  simp [cycleBlock, List.countP_append, List.countP_cons, writesTo, pollN_countP]

theorem cycleBlock_countP_stopReq :
    (cycleBlock p).countP (writesTo Var.stopReq) = 1 := by
  simp [cycleBlock, List.countP_append, List.countP_cons, writesTo, pollN_countP]

end LoopLemmas

section ExnLemmas

variable (flag failAt : ℕ → Bool) (p : RunParams)

theorem cycleLoopExn_cancel {k : ℕ} (h0 : flag k = true) (c w : ℕ) :
    cycleLoopExn flag failAt p (c + 1) k w =
      ([Event.check true], k + 1, w, false) := by
  simp [cycleLoopExn, h0]

theorem cycleLoopExn_failCmd {k w : ℕ} (h0 : flag k = false)
    (hf : failAt w = true) (c : ℕ) :
    cycleLoopExn flag failAt p (c + 1) k w =
      ([Event.check false], k + 1, w, true) := by
  simp [cycleLoopExn, h0, hf]

theorem cycleLoopExn_failRun {k w : ℕ} (h0 : flag k = false)
    (hf0 : failAt w = false) (hf1 : failAt (w + 1) = true) (c : ℕ) :
    cycleLoopExn flag failAt p (c + 1) k w =
      ([Event.check false, Event.write Var.cmd p.cntCmd], k + 1, w + 1, true) := by
  simp [cycleLoopExn, h0, hf0, hf1]

theorem cycleLoopExn_mid {k w : ℕ} (h0 : flag k = false)
    (hf0 : failAt w = false) (hf1 : failAt (w + 1) = false)
    (h1 : flag (waitLoop flag p.runTicks (k + 1)).2.1 = true) (c : ℕ) :
    cycleLoopExn flag failAt p (c + 1) k w =
      ([Event.check false, Event.write Var.cmd p.cntCmd, Event.write Var.runReq 1] ++
          (waitLoop flag p.runTicks (k + 1)).1 ++ [Event.check true],
        (waitLoop flag p.runTicks (k + 1)).2.1 + 1, w + 2, false) := by
  simp [cycleLoopExn, h0, hf0, hf1, h1]

theorem cycleLoopExn_failStop {k w : ℕ} (h0 : flag k = false)
    (hf0 : failAt w = false) (hf1 : failAt (w + 1) = false)
    (h1 : flag (waitLoop flag p.runTicks (k + 1)).2.1 = false)
    (hf2 : failAt (w + 2) = true) (c : ℕ) :
    cycleLoopExn flag failAt p (c + 1) k w =
      ([Event.check false, Event.write Var.cmd p.cntCmd, Event.write Var.runReq 1] ++
          (waitLoop flag p.runTicks (k + 1)).1 ++ [Event.check false],
        (waitLoop flag p.runTicks (k + 1)).2.1 + 1, w + 2, true) := by
  simp [cycleLoopExn, h0, hf0, hf1, h1, hf2]

theorem cycleLoopExn_full {k w : ℕ} (h0 : flag k = false)
    (hf0 : failAt w = false) (hf1 : failAt (w + 1) = false)
    (h1 : flag (waitLoop flag p.runTicks (k + 1)).2.1 = false)
    (hf2 : failAt (w + 2) = false) (c : ℕ) :
    cycleLoopExn flag failAt p (c + 1) k w =
      ([Event.check false, Event.write Var.cmd p.cntCmd, Event.write Var.runReq 1] ++
          (waitLoop flag p.runTicks (k + 1)).1 ++
          [Event.check false, Event.write Var.stopReq 1] ++
          (waitLoop flag p.stopTicks ((waitLoop flag p.runTicks (k + 1)).2.1 + 1)).1 ++
          (cycleLoopExn flag failAt p c
            (waitLoop flag p.stopTicks ((waitLoop flag p.runTicks (k + 1)).2.1 + 1)).2.1
            (w + 3)).1,
        (cycleLoopExn flag failAt p c
          (waitLoop flag p.stopTicks ((waitLoop flag p.runTicks (k + 1)).2.1 + 1)).2.1
          (w + 3)).2) := by
  simp [cycleLoopExn, h0, hf0, hf1, h1, hf2]

/-- As long as no write has raised, the fallible loop agrees with the
never-failing loop: same events, same flag-check bookkeeping. -/
theorem cycleLoopExn_agree : ∀ c k w,
    (cycleLoopExn flag failAt p c k w).2.2.2 = false →
    (cycleLoopExn flag failAt p c k w).1 = (cycleLoop flag p c k).1 ∧
    (cycleLoopExn flag failAt p c k w).2.1 = (cycleLoop flag p c k).2 := by
  intro c
  induction c with
  | zero => intro k w _; exact ⟨rfl, rfl⟩
  | succ c ih =>
    intro k w hab
    cases h0 : flag k with
    | true =>
      rw [cycleLoopExn_cancel flag failAt p h0, cycleLoop_succ_cancel flag p h0]
      exact ⟨rfl, rfl⟩
    | false =>
      cases hf0 : failAt w with
      | true =>
        rw [cycleLoopExn_failCmd flag failAt p h0 hf0] at hab
        exact absurd hab (by simp)
      | false =>
        cases hf1 : failAt (w + 1) with
        | true =>
          rw [cycleLoopExn_failRun flag failAt p h0 hf0 hf1] at hab
          exact absurd hab (by simp)
        | false =>
          cases h1 : flag (waitLoop flag p.runTicks (k + 1)).2.1 with
          | true =>
            rw [cycleLoopExn_mid flag failAt p h0 hf0 hf1 h1,
              cycleLoop_succ_mid flag p h0 h1]
            exact ⟨rfl, rfl⟩
          | false =>
            cases hf2 : failAt (w + 2) with
            | true =>
              rw [cycleLoopExn_failStop flag failAt p h0 hf0 hf1 h1 hf2] at hab
              exact absurd hab (by simp)
            | false =>
              rw [cycleLoopExn_full flag failAt p h0 hf0 hf1 h1 hf2] at hab
              rw [cycleLoopExn_full flag failAt p h0 hf0 hf1 h1 hf2,
                cycleLoop_succ_full flag p h0 h1]
              have hrec := ih
                (waitLoop flag p.stopTicks
                  ((waitLoop flag p.runTicks (k + 1)).2.1 + 1)).2.1 (w + 3) hab
              exact ⟨by rw [hrec.1], hrec.2⟩

/-- When a write raises, the events performed so far form a proper
prefix of the never-failing run's loop trace, cut exactly at the write
that raised: the failing write itself and everything after it never
happen. -/
theorem cycleLoopExn_abort : ∀ c k w,
    (cycleLoopExn flag failAt p c k w).2.2.2 = true →
    ∃ v x rest, (cycleLoop flag p c k).1 =
      (cycleLoopExn flag failAt p c k w).1 ++ Event.write v x :: rest := by
  intro c
  induction c with
  | zero => intro k w hab; exact absurd hab (by simp [cycleLoopExn])
  | succ c ih =>
    intro k w hab
    cases h0 : flag k with
    | true =>
      rw [cycleLoopExn_cancel flag failAt p h0] at hab
      exact absurd hab (by simp)
    | false =>
      cases hf0 : failAt w with
      | true =>
        rw [cycleLoopExn_failCmd flag failAt p h0 hf0]
        cases h1 : flag (waitLoop flag p.runTicks (k + 1)).2.1 with
        | true =>
          rw [cycleLoop_succ_mid flag p h0 h1]
          exact ⟨Var.cmd, p.cntCmd, Event.write Var.runReq 1 ::
            ((waitLoop flag p.runTicks (k + 1)).1 ++ [Event.check true]), by simp⟩
        | false =>
          rw [cycleLoop_succ_full flag p h0 h1]
          exact ⟨Var.cmd, p.cntCmd, Event.write Var.runReq 1 ::
            ((waitLoop flag p.runTicks (k + 1)).1 ++
              (Event.check false :: Event.write Var.stopReq 1 ::
                ((waitLoop flag p.stopTicks
                  ((waitLoop flag p.runTicks (k + 1)).2.1 + 1)).1 ++
                  (cycleLoop flag p c
                    (waitLoop flag p.stopTicks
                      ((waitLoop flag p.runTicks (k + 1)).2.1 + 1)).2.1).1))),
            by simp [List.append_assoc]⟩
      | false =>
        cases hf1 : failAt (w + 1) with
        | true =>
          rw [cycleLoopExn_failRun flag failAt p h0 hf0 hf1]
          cases h1 : flag (waitLoop flag p.runTicks (k + 1)).2.1 with
          | true =>
            rw [cycleLoop_succ_mid flag p h0 h1]
            exact ⟨Var.runReq, 1,
              (waitLoop flag p.runTicks (k + 1)).1 ++ [Event.check true], by simp⟩
          | false =>
            rw [cycleLoop_succ_full flag p h0 h1]
            exact ⟨Var.runReq, 1,
              (waitLoop flag p.runTicks (k + 1)).1 ++
                (Event.check false :: Event.write Var.stopReq 1 ::
                  ((waitLoop flag p.stopTicks
                    ((waitLoop flag p.runTicks (k + 1)).2.1 + 1)).1 ++
                    (cycleLoop flag p c
                      (waitLoop flag p.stopTicks
                        ((waitLoop flag p.runTicks (k + 1)).2.1 + 1)).2.1).1)),
              by simp [List.append_assoc]⟩
        | false =>
          cases h1 : flag (waitLoop flag p.runTicks (k + 1)).2.1 with
          | true =>
            rw [cycleLoopExn_mid flag failAt p h0 hf0 hf1 h1] at hab
            exact absurd hab (by simp)
          | false =>
            cases hf2 : failAt (w + 2) with
            | true =>
              rw [cycleLoopExn_failStop flag failAt p h0 hf0 hf1 h1 hf2,
                cycleLoop_succ_full flag p h0 h1]
              exact ⟨Var.stopReq, 1,
                (waitLoop flag p.stopTicks
                  ((waitLoop flag p.runTicks (k + 1)).2.1 + 1)).1 ++
                  (cycleLoop flag p c
                    (waitLoop flag p.stopTicks
                      ((waitLoop flag p.runTicks (k + 1)).2.1 + 1)).2.1).1,
                by simp [List.append_assoc]⟩
            | false =>
              rw [cycleLoopExn_full flag failAt p h0 hf0 hf1 h1 hf2] at hab
              rw [cycleLoopExn_full flag failAt p h0 hf0 hf1 h1 hf2,
                cycleLoop_succ_full flag p h0 h1]
              rcases ih (waitLoop flag p.stopTicks
                  ((waitLoop flag p.runTicks (k + 1)).2.1 + 1)).2.1 (w + 3) hab
                with ⟨v, x, rest, hr⟩
              refine ⟨v, x, rest, ?_⟩
              rw [hr]
              simp [List.append_assoc]

end ExnLemmas

/-- Shared computation: the raw command count of the spec scenario,
`int(round(1500 / 0.19913))`, equals 7533. -/
theorem toCounts_scenario : toCounts 1500 (19913 / 100000) = 7533 := by
  have hq : ((1500 : ℚ) / (19913 / 100000)) = 150000000 / 19913 := by norm_num
  have hf : ⌊(150000000 / 19913 : ℚ)⌋ = 7532 := by
    norm_num [Int.floor_eq_iff]
  rw [toCounts, hq, pyRound, hf]
  norm_num

/-- C1: every execution of the sequence run loop — whether it runs all
cycles to completion or observes cancellation — ends with the stop
request asserted: the last channel write of the trace is the write of
1 to the stop-request variable (the unconditional safety write of
lines 300-302), so both terminal states leave the motor in a stopped
command state. -/
theorem c1_terminal_stop (flag : ℕ → Bool) (p : RunParams) :
    ((runSequence flag p).1.filter isWriteEv).getLast? =
      some (Event.write Var.stopReq 1) := by
  have hrs : (runSequence flag p).1 =
      (cycleLoop flag p p.cycles 0).1 ++
        [Event.write Var.stopReq 1,
          Event.check (flag (cycleLoop flag p p.cycles 0).2)] := rfl
  rw [hrs, List.filter_append]
  simp [isWriteEv, List.getLast?_append_cons]

/-- C2: with a monotone cancellation flag (set once, never cleared),
(a) every sleep of the run-loop trace directly follows a flag check
that returned false, so a cancellation request is separated from the
check observing it by at most one 50 ms sleep; (b) after the first
check that returns true the trace ends at once — at most one more
confirming check, then exactly one further stop-request assertion as
the final write, with no sleep and no new phase; (c) if cancellation
is ever observed the run ends in the StoppedByUser terminal state. -/
theorem c2_cancel_latency (flag : ℕ → Bool) (p : RunParams) (hm : Mono flag) :
    sleepsGuarded (runSequence flag p).1 = true ∧
    cancelTail (runSequence flag p).1 ∧
    (Event.check true ∈ (runSequence flag p).1 →
      (runSequence flag p).2 = Terminal.stoppedByUser) := by
  have hrs : (runSequence flag p).1 =
      (cycleLoop flag p p.cycles 0).1 ++
        [Event.write Var.stopReq 1,
          Event.check (flag (cycleLoop flag p p.cycles 0).2)] := rfl
  refine ⟨runSequence_sleepsGuarded flag p, ?_, ?_⟩
  · rw [hrs]
    rcases cycleLoop_spec flag p hm p.cycles 0 with hctf | ⟨hfl, es0, hc0, hdec⟩
    · rw [cancelTail_append_of_ctf _ hctf]
      cases hb : flag (cycleLoop flag p p.cycles 0).2 with
      | true => simp [cancelTail]
      | false => simp [cancelTail]
    · rw [hfl]
      rcases hdec with hd | hd
      · rw [hd]
        have hassoc : (es0 ++ [Event.check true]) ++
            [Event.write Var.stopReq 1, Event.check true] =
            es0 ++ (Event.check true ::
              [Event.write Var.stopReq 1, Event.check true]) := by
          simp [List.append_assoc]
        rw [hassoc, cancelTail_append_of_ctf _ hc0]
        simp [cancelTail]
      · rw [hd]
        have hassoc : (es0 ++ [Event.check true, Event.check true]) ++
            [Event.write Var.stopReq 1, Event.check true] =
            es0 ++ (Event.check true :: [Event.check true,
              Event.write Var.stopReq 1, Event.check true]) := by
          simp [List.append_assoc]
        rw [hassoc, cancelTail_append_of_ctf _ hc0]
        simp [cancelTail]
  · intro hmem
    rcases cycleLoop_spec flag p hm p.cycles 0 with hctf | ⟨hfl, _, _, _⟩
    · rw [hrs] at hmem
      rcases List.mem_append.mp hmem with h | h
      · exact absurd h hctf
      · have hb : flag (cycleLoop flag p p.cycles 0).2 = true := by
          rcases List.mem_cons.mp h with h1 | h1
          · exact absurd h1 (by simp)
          · rcases List.mem_cons.mp h1 with h2 | h2
            · exact (Event.check.injEq _ _).mp h2.symm |>.symm ▸ rfl
            · exact absurd h2 (by simp)
        show (if flag (cycleLoop flag p p.cycles 0).2 then Terminal.stoppedByUser
          else Terminal.completed) = Terminal.stoppedByUser
        rw [hb]
        rfl
    · show (if flag (cycleLoop flag p p.cycles 0).2 then Terminal.stoppedByUser
        else Terminal.completed) = Terminal.stoppedByUser
      rw [hfl]
      rfl

theorem c2_cancel_latency_witness :
    Mono (fun i => decide (2 ≤ i)) ∧
    (sleepsGuarded (runSequence (fun i => decide (2 ≤ i)) ⟨7533, 2, 2, 2⟩).1 = true ∧
      cancelTail (runSequence (fun i => decide (2 ≤ i)) ⟨7533, 2, 2, 2⟩).1 ∧
      (Event.check true ∈ (runSequence (fun i => decide (2 ≤ i)) ⟨7533, 2, 2, 2⟩).1 →
        (runSequence (fun i => decide (2 ≤ i)) ⟨7533, 2, 2, 2⟩).2 =
          Terminal.stoppedByUser)) := by
  have hm : Mono (fun i => decide (2 ≤ i)) := by
    intro i j hij hi
    simp only [decide_eq_true_eq] at hi ⊢
    omega
  exact ⟨hm, c2_cancel_latency (fun i => decide (2 ≤ i)) ⟨7533, 2, 2, 2⟩ hm⟩

/-- C3: a sequence started with iterations = 3 and never cancelled
performs exactly three cycles in Run/Stop alternation — each cycle
writes the command count, asserts the run request, waits, asserts the
stop request once (three Stop-phase assertions in total over the three
blocks), waits — and then ends Completed (after the terminal safety
write of the stop request). -/
theorem c3_three_cycles (cnt : ℤ) (rt st : ℕ) :
    runSequence (fun _ => false) ⟨cnt, rt, st, 3⟩ =
      (cycleBlock ⟨cnt, rt, st, 3⟩ ++ (cycleBlock ⟨cnt, rt, st, 3⟩ ++
        (cycleBlock ⟨cnt, rt, st, 3⟩ ++
          [Event.write Var.stopReq 1, Event.check false])),
        Terminal.completed) ∧
    (runSequence (fun _ => false) ⟨cnt, rt, st, 3⟩).1.countP
      (writesTo Var.cmd) = 3 ∧
    (runSequence (fun _ => false) ⟨cnt, rt, st, 3⟩).1.countP
      (writesTo Var.runReq) = 3 ∧
    (blocks ⟨cnt, rt, st, 3⟩ 3).countP (writesTo Var.stopReq) = 3 := by
  have h := runSequence_false (⟨cnt, rt, st, 3⟩ : RunParams)
  refine ⟨?_, ?_, ?_, ?_⟩
  · rw [h]
    simp [blocks, List.append_assoc]
  · rw [h]
    simp [blocks, List.countP_append, List.countP_cons, writesTo,
      cycleBlock_countP_cmd]
  · rw [h]
    simp [blocks, List.countP_append, List.countP_cons, writesTo,
      cycleBlock_countP_runReq]
  · simp [blocks, List.countP_append, cycleBlock_countP_stopReq]

/-- C4 counterexample: the claim says every SequenceParams field is
validated, including targetSpeed > 0, and every violating parameter
set is rejected with no side effects.  But line 243 never checks
`rpm`: with targetSpeed = -1 (and the other fields valid) `_start_seq`
accepts the request, starts the worker thread and stores the
parameters. -/
theorem c4_no_rpm_validation :
    ((⟨-1, 1, 1, 0, 1⟩ : SeqInputs).rpm ≤ 0) ∧
    (startSeq ⟨true, true, false, false, false, none⟩
      ⟨-1, 1, 1, 0, 1⟩).2 = StartResult.started ∧
    (startSeq ⟨true, true, false, false, false, none⟩
      ⟨-1, 1, 1, 0, 1⟩).1.threadAlive = true := by
  refine ⟨by norm_num, ?_, ?_⟩ <;> rfl

/-- C4 as amended: `_start_seq` validates scale > 0, runDuration > 0,
stopDuration ≥ 0 and iterations > 0 (targetSpeed is not validated); if
the worker is not running, any violation of these four constraints is
rejected with an input error and no side effect at all — the state is
returned unchanged, so no thread starts, nothing is written, nothing
is clamped. -/
theorem c4_validation_rejects (g : Gui) (inp : SeqInputs)
    (hth : g.threadAlive = false)
    (hbad : inp.scale ≤ 0 ∨ inp.runT ≤ 0 ∨ inp.stopT < 0 ∨ inp.cycles ≤ 0) :
    startSeq g inp = (g, StartResult.inputError) := by
  simp [startSeq, hth, hbad]

theorem c4_validation_rejects_witness :
    (⟨true, true, false, false, false, none⟩ : Gui).threadAlive = false ∧
    ((⟨1500, 0, 10, 50, 3⟩ : SeqInputs).scale ≤ 0 ∨
      (⟨1500, 0, 10, 50, 3⟩ : SeqInputs).runT ≤ 0 ∨
      (⟨1500, 0, 10, 50, 3⟩ : SeqInputs).stopT < 0 ∨
      (⟨1500, 0, 10, 50, 3⟩ : SeqInputs).cycles ≤ 0) ∧
    startSeq ⟨true, true, false, false, false, none⟩ ⟨1500, 0, 10, 50, 3⟩ =
      (⟨true, true, false, false, false, none⟩, StartResult.inputError) :=
  ⟨rfl, Or.inl (by decide),
    c4_validation_rejects _ _ rfl (Or.inl (by decide))⟩

/-- C5 counterexample: the claim says a failing mid-run write surfaces
a fatal error, performs a best-effort stop assertion and moves to
StoppedByUser.  `_run_sequence` has no exception handling: if the very
first write (the command count) raises, the exception propagates, the
run produces no stop-request write at all and no terminal status —
contradicting both the best-effort stop and the StoppedByUser
transition. -/
theorem c5_unhandled_write_failure :
    runSequenceExn (fun _ => false) (fun _ => true) ⟨7533, 1, 1, 1⟩ =
      ([Event.check false], Outcome.raised) ∧
    Event.write Var.stopReq 1 ∉
      (runSequenceExn (fun _ => false) (fun _ => true) ⟨7533, 1, 1, 1⟩).1 ∧
    (runSequenceExn (fun _ => false) (fun _ => true) ⟨7533, 1, 1, 1⟩).2 ≠
      Outcome.finished Terminal.stoppedByUser := by
  refine ⟨?_, ?_, ?_⟩ <;> decide

/-- C5 as amended: whenever any channel write of a run raises — the
command write, the run-request write, a stop-phase write of any cycle,
or the final safety write, regardless of how many writes succeeded
before — the exception propagates out of the run loop uncaught and the
run stops dead at the failing write: its trace is a proper prefix of
the never-failing run's trace, cut exactly at the write that raised,
so nothing at all runs after the failure (in particular no best-effort
stop assertion is appended in response, and the failing write is never
retried), the run performs strictly fewer writes than the unfailing
run, and no terminal status transition happens. -/
theorem c5_raise_aborts (flag failAt : ℕ → Bool) (p : RunParams)
    (h : (runSequenceExn flag failAt p).2 = Outcome.raised) :
    (∃ v x rest,
      (runSequence flag p).1 =
        (runSequenceExn flag failAt p).1 ++ Event.write v x :: rest) ∧
    (runSequenceExn flag failAt p).1.countP isWriteEv <
      (runSequence flag p).1.countP isWriteEv ∧
    ∀ t, (runSequenceExn flag failAt p).2 ≠ Outcome.finished t := by
  have hdec : ∃ v x rest,
      (runSequence flag p).1 =
        (runSequenceExn flag failAt p).1 ++ Event.write v x :: rest := by
    cases hab : (cycleLoopExn flag failAt p p.cycles 0 0).2.2.2 with
    | true =>
      rcases cycleLoopExn_abort flag failAt p p.cycles 0 0 hab with ⟨v, x, rest, hr⟩
      refine ⟨v, x, rest ++ [Event.write Var.stopReq 1,
        Event.check (flag (cycleLoop flag p p.cycles 0).2)], ?_⟩
      have h1 : (runSequenceExn flag failAt p).1 =
          (cycleLoopExn flag failAt p p.cycles 0 0).1 := by
        simp [runSequenceExn, hab]
      have h2 : (runSequence flag p).1 =
          (cycleLoop flag p p.cycles 0).1 ++
            [Event.write Var.stopReq 1,
              Event.check (flag (cycleLoop flag p p.cycles 0).2)] := rfl
      rw [h2, hr, h1]
      simp [List.append_assoc]
    | false =>
      cases hfin : failAt (cycleLoopExn flag failAt p p.cycles 0 0).2.2.1 with
      | false =>
        exfalso
        simp [runSequenceExn, hab, hfin] at h
      | true =>
        have hag := cycleLoopExn_agree flag failAt p p.cycles 0 0 hab
        refine ⟨Var.stopReq, 1,
          [Event.check (flag (cycleLoop flag p p.cycles 0).2)], ?_⟩
        have h1 : (runSequenceExn flag failAt p).1 =
            (cycleLoopExn flag failAt p p.cycles 0 0).1 := by
          simp [runSequenceExn, hab, hfin]
        rw [h1, hag.1]
        rfl
  refine ⟨hdec, ?_, ?_⟩
  · rcases hdec with ⟨v, x, rest, hr⟩
    rw [hr, List.countP_append]
    have hcnt : (Event.write v x :: rest).countP isWriteEv =
        rest.countP isWriteEv + 1 := by
      simp [List.countP_cons, isWriteEv]
    rw [hcnt]
    omega
  · intro t
    simp [h]

theorem c5_raise_aborts_witness :
    (runSequenceExn (fun _ => false) (fun w => decide (w = 2))
        ⟨7533, 1, 1, 1⟩).2 = Outcome.raised ∧
    ((∃ v x rest,
      (runSequence (fun _ => false) ⟨7533, 1, 1, 1⟩).1 =
        (runSequenceExn (fun _ => false) (fun w => decide (w = 2))
          ⟨7533, 1, 1, 1⟩).1 ++ Event.write v x :: rest) ∧
    (runSequenceExn (fun _ => false) (fun w => decide (w = 2))
        ⟨7533, 1, 1, 1⟩).1.countP isWriteEv <
      (runSequence (fun _ => false) ⟨7533, 1, 1, 1⟩).1.countP isWriteEv ∧
    ∀ t, (runSequenceExn (fun _ => false) (fun w => decide (w = 2))
        ⟨7533, 1, 1, 1⟩).2 ≠ Outcome.finished t) :=
  ⟨by decide, c5_raise_aborts _ _ _ (by decide)⟩

/-- C6 counterexample: the claimed raw command count
round(1500 / 0.19913) = 7536 is wrong: 1500 / 0.19913 ≈ 7532.77, so
the converter of line 270 computes 7533, not 7536. -/
theorem c6_count_value :
    toCounts 1500 (19913 / 100000) = 7533 ∧
    toCounts 1500 (19913 / 100000) ≠ 7536 := by
  refine ⟨toCounts_scenario, ?_⟩
  rw [toCounts_scenario]
  decide

/-- C6 as amended: for speed 1500 RPM and scale 0.19913 RPM/count the
raw command count is round(1500/0.19913) = 7533; with run = 10 s
(200 poll ticks), stop = 50 s (1000 poll ticks) and one iteration the
uncancelled run writes that count, asserts run, waits, asserts stop,
waits, performs the final safety stop write and ends Completed. -/
theorem c6_scenario_run :
    toCounts 1500 (19913 / 100000) = 7533 ∧
    runSequence (fun _ => false) ⟨toCounts 1500 (19913 / 100000), 200, 1000, 1⟩ =
      (cycleBlock ⟨7533, 200, 1000, 1⟩ ++
        [Event.write Var.stopReq 1, Event.check false], Terminal.completed) := by
  refine ⟨toCounts_scenario, ?_⟩
  rw [toCounts_scenario, runSequence_false (⟨7533, 200, 1000, 1⟩ : RunParams)]
  simp [blocks]

/-- C7 counterexample: the claim says a failing read makes the tick
publish the "unavailable" sentinel.  It does not: the except of line
322 substitutes zero counts and the tick publishes a normally
formatted zero sample ("+0 RPM (0)"), not the sentinel. -/
theorem c7_outage_zero_sample :
    pollSpeeds true none (some 1) = Sample.value 0 0 0 0 ∧
    pollSpeeds true none (some 1) ≠ Sample.unavailable := by
  constructor
  · simp [pollSpeeds, toRPM]
  · simp [pollSpeeds]

/-- C7 as amended: a failing read never propagates and never touches
controller state — the tick is a pure function of its inputs and the
state component returned by `_poll_speeds` is unchanged; during an
outage the tick publishes the zero-count sample (not the "unavailable"
sentinel, which appears only when disconnected or when the scale entry
does not parse); on the first tick with reads restored it publishes
the correctly converted RPM values with no poller restart (ticks carry
no tick-to-tick state). -/
theorem c7_poller_recovery (g : Gui) (readRes : Option (ℤ × ℤ))
    (scaleRes : Option ℚ) (s : ℚ) (cm cc : ℤ) :
    (pollSpeedsSt g readRes scaleRes).1 = g ∧
    pollSpeeds true none (some s) = Sample.value 0 0 0 0 ∧
    pollSpeeds true (some (cm, cc)) (some s) =
      Sample.value cm cc (toRPM cm s) (toRPM cc s) ∧
    pollSpeeds false readRes scaleRes = Sample.unavailable := by
  refine ⟨rfl, ?_, rfl, rfl⟩
  simp [pollSpeeds, toRPM]

/-- C8: calling `_start_seq` while the worker thread is alive returns
at line 234 before any validation, write or state change: the state is
returned identically (parameters, flags, buttons untouched), no second
thread starts, so at most one sequence run is active at a time. -/
theorem c8_start_while_running (g : Gui) (inp : SeqInputs)
    (h : g.threadAlive = true) :
    startSeq g inp = (g, StartResult.alreadyRunning) := by
  simp [startSeq, h]

theorem c8_start_while_running_witness :
    (⟨true, false, true, true, false, none⟩ : Gui).threadAlive = true ∧
    startSeq ⟨true, false, true, true, false, none⟩ ⟨1500, 1, 10, 50, 3⟩ =
      (⟨true, false, true, true, false, none⟩, StartResult.alreadyRunning) :=
  ⟨rfl, c8_start_while_running _ _ rfl⟩

/-- C9: for every integer count c and positive scale s, the round trip
toCounts (toRPM c s) s — counts·scale followed by int(round(rpm/scale))
— recovers c exactly, hence in particular within one unit of rounding
error. -/
theorem c9_roundtrip (c : ℤ) (s : ℚ) (hs : 0 < s) :
    |toCounts (toRPM c s) s - c| ≤ 1 ∧ toCounts (toRPM c s) s = c := by
  have h := toCounts_toRPM c s (ne_of_gt hs)
  rw [h]
  simp

theorem c9_roundtrip_witness :
    (0 : ℚ) < 2 ∧
    (|toCounts (toRPM 7536 2) 2 - 7536| ≤ 1 ∧ toCounts (toRPM 7536 2) 2 = 7536) :=
  ⟨by decide, c9_roundtrip 7536 2 (by decide)⟩

/-- C10: starting from a disconnected state, `_connect` flips the
connected flag and enables Start exactly when the channel connect, all
five variable lookups and the initial hardware-UI-disable write all
succeed (and the port/ELF pre-checks pass); on any failure the error
is reported, the state is returned unchanged — still disconnected,
Start still disabled — and on success the hardware-UI write is the one
performed write. -/
theorem c10_connect_atomic (g : Gui) (hs ee : Bool) (o : ConnectOracle)
    (hc : g.connected = false) (hb : g.startEnabled = false) :
    ((connect g hs ee o).2.1 = ConnectResult.ok ↔
      hs = true ∧ ee = true ∧ o.connectOk = true ∧ o.varOk Var.hwui = true ∧
      o.varOk Var.cmd = true ∧ o.varOk Var.meas = true ∧
      o.varOk Var.runReq = true ∧ o.varOk Var.stopReq = true ∧
      o.hwuiWriteOk = true) ∧
    ((connect g hs ee o).1.connected = true ↔
      (connect g hs ee o).2.1 = ConnectResult.ok) ∧
    ((connect g hs ee o).2.1 ≠ ConnectResult.ok → (connect g hs ee o).1 = g) ∧
    ((connect g hs ee o).2.1 = ConnectResult.ok →
      (connect g hs ee o).1.startEnabled = true ∧
      (connect g hs ee o).2.2 = [Event.write Var.hwui 0]) := by
  cases hs <;> cases ee <;>
    cases h1 : o.connectOk <;>
    cases h2 : o.varOk Var.hwui <;> cases h3 : o.varOk Var.cmd <;>
    cases h4 : o.varOk Var.meas <;> cases h5 : o.varOk Var.runReq <;>
    cases h6 : o.varOk Var.stopReq <;> cases h7 : o.hwuiWriteOk <;>
    simp_all [connect]

theorem c10_connect_atomic_witness :
    (⟨false, false, false, false, false, none⟩ : Gui).connected = false ∧
    (⟨false, false, false, false, false, none⟩ : Gui).startEnabled = false ∧
    (((connect ⟨false, false, false, false, false, none⟩ true true
        ⟨true, fun _ => true, true⟩).2.1 = ConnectResult.ok ↔
      true = true ∧ true = true ∧
      (⟨true, fun _ => true, true⟩ : ConnectOracle).connectOk = true ∧
      (⟨true, fun _ => true, true⟩ : ConnectOracle).varOk Var.hwui = true ∧
      (⟨true, fun _ => true, true⟩ : ConnectOracle).varOk Var.cmd = true ∧
      (⟨true, fun _ => true, true⟩ : ConnectOracle).varOk Var.meas = true ∧
      (⟨true, fun _ => true, true⟩ : ConnectOracle).varOk Var.runReq = true ∧
      (⟨true, fun _ => true, true⟩ : ConnectOracle).varOk Var.stopReq = true ∧
      (⟨true, fun _ => true, true⟩ : ConnectOracle).hwuiWriteOk = true) ∧
    ((connect ⟨false, false, false, false, false, none⟩ true true
        ⟨true, fun _ => true, true⟩).1.connected = true ↔
      (connect ⟨false, false, false, false, false, none⟩ true true
        ⟨true, fun _ => true, true⟩).2.1 = ConnectResult.ok) ∧
    ((connect ⟨false, false, false, false, false, none⟩ true true
        ⟨true, fun _ => true, true⟩).2.1 ≠ ConnectResult.ok →
      (connect ⟨false, false, false, false, false, none⟩ true true
        ⟨true, fun _ => true, true⟩).1 =
        ⟨false, false, false, false, false, none⟩) ∧
    ((connect ⟨false, false, false, false, false, none⟩ true true
        ⟨true, fun _ => true, true⟩).2.1 = ConnectResult.ok →
      (connect ⟨false, false, false, false, false, none⟩ true true
        ⟨true, fun _ => true, true⟩).1.startEnabled = true ∧
      (connect ⟨false, false, false, false, false, none⟩ true true
        ⟨true, fun _ => true, true⟩).2.2 = [Event.write Var.hwui 0])) :=
  ⟨rfl, rfl, c10_connect_atomic _ _ _ _ rfl rfl⟩

end MotorGui
